import Mathlib

/-!
Verification of the coi/registry validator (scripts/validate_registry.py).

The script is embedded shallowly:
* JSON values parsed by json.loads become the inductive `Json`;
* the script's `fail(msg)` (print one diagnostic and exit 1) becomes the
  error `VErr.fail msg` in an `Except VErr` computation, and a would-be
  Python runtime crash (TypeError / AttributeError / KeyError) becomes
  `VErr.typeError`, so that "validation never crashes" is a statable theorem;
* the regexes are translated into executable recognizers over `List Char`,
  with Python's `re.match` semantics of a final `$` (which also matches just
  before one trailing newline) made explicit by `pyDollar`;
* the single GitHub API call is an oracle `net : String → NetResult`;
* file discovery hands `registry_main` the list of (path, json.loads outcome)
  pairs; json.loads is a deterministic function of the file bytes, so a
  file's content is modelled by its parse outcome.
-/

deriving instance DecidableEq for Except

/-- JSON values as produced by Python's json.loads. `num` holds ints,
`float` holds non-integer JSON numbers (every Python float value is a
rational, and the validator only ever type-tests floats, never inspects
them); `obj` holds the parsed dict's entries. -/
inductive Json where
  | null
  | bool (b : Bool)
  | num (n : Int)
  | float (q : Rat)
  | str (s : String)
  | arr (elems : List Json)
  | obj (fields : List (String × Json))

/-- Validation outcome errors. `fail msg` models the script's `fail()`
(one diagnostic, exit 1). `typeError` models a Python runtime crash
(TypeError / AttributeError / KeyError); the script never produces it,
which is itself one of the claims checked below. -/
inductive VErr where
  | typeError
  | fail (msg : String)
deriving DecidableEq

/-- The script's `fail(message)`: abort the whole run with one diagnostic. -/
def vfail (msg : String) : Except VErr α := .error (.fail msg)

/-- First-occurrence lookup among the fields of a parsed JSON object. -/
def jlookup (fields : List (String × Json)) (k : String) : Option Json :=
  List.lookup k fields

/-- Character-list version of Python `needle is a prefix of hay`. -/
def leadsWith : List Char → List Char → Bool
  | [], _ => true
  | _ :: _, [] => false
  | a :: as, b :: bs => a == b && leadsWith as bs

/-- Character-list version of Python substring containment (`n in s`). -/
def hasSub (n : List Char) : List Char → Bool
  | [] => n.isEmpty
  | c :: cs => leadsWith n (c :: cs) || hasSub n cs

namespace Json

/-- isinstance(x, dict). -/
def isObj : Json → Bool
  | .obj _ => true
  | _ => false

/-- isinstance(x, str). -/
def isStr : Json → Bool
  | .str _ => true
  | _ => false

/-- Python truthiness of a json.loads value. -/
def truthy : Json → Bool
  | .null => false
  | .bool b => b
  | .num n => n != 0
  | .float q => q != 0
  | .str s => s != ""
  | .arr l => !l.isEmpty
  | .obj f => !f.isEmpty

/-- isinstance(x, int) together with the integer value; Python bools are
ints (True == 1, False == 0), floats are not. -/
def asInt? : Json → Option Int
  | .num n => some n
  | .bool b => some (if b then 1 else 0)
  | _ => none

/-- Numeric value of a json.loads value for Python `<` (ints, bools and
floats compare numerically). -/
def asRat? : Json → Option Rat
  | .num n => some n
  | .bool b => some (if b then 1 else 0)
  | .float q => some q
  | _ => none

/-- Python `==` between a json.loads value and a str: true exactly when it
is that string (no other JSON value compares equal to a str). -/
def eqStr : Json → String → Bool
  | .str s, t => s == t
  | _, _ => false

/-- Python str() as interpolated by the script's f-strings. Exact for the
values the script's messages actually render on any path a claim touches
(str, None, bools, ints); float/container rendering is abbreviated and no
theorem below depends on it. -/
def pyStr : Json → String
  | .str s => s
  | .null => "None"
  | .bool true => "True"
  | .bool false => "False"
  | .num n => toString n
  | .float q => toString q
  | .arr _ => "<list>"
  | .obj _ => "<dict>"

/-- Python `k in x`: key test on dicts, substring test on strs, member test
on lists; raises TypeError on the other json.loads types. -/
def hasKey : Json → String → Except VErr Bool
  | .obj fs, k => pure (jlookup fs k).isSome
  | .str s, k => pure (hasSub k.data s.data)
  | .arr xs, k => pure (xs.any (fun e => e.eqStr k))
  | _, _ => .error .typeError

/-- Python `x[k]` on a json.loads value: KeyError (crash) when the key is
missing, TypeError (crash) on non-dicts. -/
def getItem : Json → String → Except VErr Json
  | .obj fs, k =>
    match jlookup fs k with
    | some v => pure v
    | none => .error .typeError
  | _, _ => .error .typeError

/-- Python `x.get(k)`: None (here `Json.null`) when the key is missing;
AttributeError (crash) on non-dicts. -/
def get? : Json → String → Except VErr Json
  | .obj fs, k => pure ((jlookup fs k).getD .null)
  | _, _ => .error .typeError

end Json

/-- Python `a < b` as the script reaches it on compiler-drop bounds:
numeric comparison, TypeError on non-numeric operands. -/
def jsonLt (a b : Json) : Except VErr Bool :=
  match a.asRat?, b.asRat? with
  | some x, some y => pure (decide (x < y))
  | _, _ => .error .typeError

/-- The script's idiom `not isinstance(v, str) or not RE.match(v)`,
returned positively: true iff v is a str matching RE. The Python `or`
short-circuits, so the idiom never crashes and is a pure predicate. -/
def strMatch (re : String → Bool) (v : Json) : Bool :=
  match v with
  | .str s => re s
  | _ => false

/-- The script's idiom `not isinstance(v, int) or v < 1`, returned
positively: true iff v is an int (or bool) that is >= 1. -/
def intGe1 (v : Json) : Bool :=
  match v.asInt? with
  | some n => decide (1 ≤ n)
  | none => false

/-- Python `version in seen_versions` for the per-package seen-set of
version strings: a non-str value is never a member (no crash). -/
def memStrs (v : Json) (seen : List String) : Bool :=
  match v with
  | .str s => seen.contains s
  | _ => false

/-- Python re.match of an anchored pattern `^X$`: `$` matches at the end of
the string or just before one final newline, so the whole string matches
iff the core X consumes everything or everything but one trailing `\n`. -/
def pyDollar (core : List Char → Bool) (cs : List Char) : Bool :=
  core cs ||
    (match cs.getLast? with
     | some c => c == '\n' && core cs.dropLast
     | none => false)

/-- Character class [a-fA-F0-9]. -/
def isHexChar (c : Char) : Bool :=
  c.isDigit || ('a' ≤ c && c ≤ 'f') || ('A' ≤ c && c ≤ 'F')

/-- Body of DATE_RE: \d{4}-\d{2}-\d{2} (\d taken as the ASCII digits). -/
def dateCore : List Char → Bool
  | [a, b, c, d, s1, e, f, s2, g, h] =>
    a.isDigit && b.isDigit && c.isDigit && d.isDigit && s1 == '-' &&
    e.isDigit && f.isDigit && s2 == '-' && g.isDigit && h.isDigit
  | _ => false

/-- DATE_RE.match truthiness: re.compile(r"^\d{4}-\d{2}-\d{2}$"). -/
def DATE_RE (s : String) : Bool := pyDollar dateCore s.data

/-- Body of SHA256_RE: [a-fA-F0-9]{64}. -/
def sha256Core (cs : List Char) : Bool := cs.length == 64 && cs.all isHexChar

/-- SHA256_RE.match truthiness: re.compile(r"^[a-fA-F0-9]{64}$"). -/
def SHA256_RE (s : String) : Bool := pyDollar sha256Core s.data

/-- Body of COMMIT_RE: [a-fA-F0-9]{40}. -/
def commitCore (cs : List Char) : Bool := cs.length == 40 && cs.all isHexChar

/-- COMMIT_RE.match truthiness: re.compile(r"^[a-fA-F0-9]{40}$"). -/
def COMMIT_RE (s : String) : Bool := pyDollar commitCore s.data

/-- Character class [a-z0-9]. -/
def isNameStart (c : Char) : Bool := c.isLower || c.isDigit

/-- Character class [a-z0-9._-]. -/
def isNameChar (c : Char) : Bool :=
  c.isLower || c.isDigit || c == '.' || c == '_' || c == '-'

/-- Body of NAME_RE: [a-z0-9][a-z0-9._-]{1,62}. -/
def nameCore : List Char → Bool
  | [] => false
  | c :: rest =>
    isNameStart c && rest.all isNameChar &&
      decide (1 ≤ rest.length) && decide (rest.length ≤ 62)

/-- NAME_RE.match truthiness: re.compile(r"^[a-z0-9][a-z0-9._-]{1,62}$"). -/
def NAME_RE (s : String) : Bool := pyDollar nameCore s.data

/-- Longest run of ASCII digits: the deterministic match of a greedy [0-9]+
that is followed by a non-digit in the pattern. -/
def takeDigits : List Char → List Char × List Char
  | [] => ([], [])
  | c :: cs =>
    if c.isDigit then
      let (d, r) := takeDigits cs
      (c :: d, r)
    else ([], c :: cs)

/-- Character class [a-zA-Z0-9.]. -/
def isPreRelChar (c : Char) : Bool := c.isAlphanum || c == '.'

/-- Body of VERSION_RE: [0-9]+\.[0-9]+\.[0-9]+(-[a-zA-Z0-9.]+)?, scanned
deterministically ([0-9]+ cannot cross a dot, so greediness is harmless). -/
def versionCore (cs : List Char) : Bool :=
  match takeDigits cs with
  | ([], _) => false
  | (_ :: _, r1) =>
    match r1 with
    | '.' :: r1' =>
      match takeDigits r1' with
      | ([], _) => false
      | (_ :: _, r2) =>
        match r2 with
        | '.' :: r2' =>
          match takeDigits r2' with
          | ([], _) => false
          | (_ :: _, r3) =>
            match r3 with
            | [] => true
            | '-' :: pre => !pre.isEmpty && pre.all isPreRelChar
            | _ => false
        | _ => false
    | _ => false

/-- VERSION_RE.match truthiness:
re.compile(r"^[0-9]+\.[0-9]+\.[0-9]+(-[a-zA-Z0-9.]+)?$"). -/
def VERSION_RE (s : String) : Bool := pyDollar versionCore s.data

/-- Strip an exact leading character sequence, the literal part
`https://github\.com/` of GITHUB_REPO_RE. -/
def stripLead : List Char → List Char → Option (List Char)
  | [], cs => some cs
  | _ :: _, [] => none
  | p :: ps, c :: cs => if c == p then stripLead ps cs else none

/-- Longest run of characters other than '/': the deterministic match of
the greedy ([^/]+) groups of GITHUB_REPO_RE, which cannot cross a slash. -/
def takeSeg : List Char → List Char × List Char
  | [] => ([], [])
  | c :: cs =>
    if c == '/' then ([], c :: cs)
    else
      let (a, r) := takeSeg cs
      (c :: a, r)

/-- GITHUB_REPO_RE.match with its two capture groups:
re.compile(r"^https://github\.com/([^/]+)/([^/]+)/?$"). The final `$` may
also sit before one trailing newline (after the optional slash as the
`['/', '\n']` case; a newline elsewhere is consumed by [^/] itself). -/
def github_match (s : String) : Option (String × String) :=
  match stripLead "https://github.com/".data s.data with
  | none => none
  | some r0 =>
    let (owner, rest1) := takeSeg r0
    if owner.isEmpty then none
    else
      match rest1 with
      | '/' :: r1 =>
        let (repo, rest2) := takeSeg r1
        if repo.isEmpty then none
        else
          match rest2 with
          | [] => some (owner.asString, repo.asString)
          | ['/'] => some (owner.asString, repo.asString)
          | ['/', '\n'] => some (owner.asString, repo.asString)
          | _ => none
      | _ => none

/-- The script's `if repo.endswith(".git"): repo = repo[:-4]`. -/
def stripDotGit (r : String) : String :=
  if leadsWith ".git".data.reverse r.data.reverse then
    (r.data.take (r.data.length - 4)).asString
  else r

/-- GITHUB_REPO_RE.match(repository) as reached right after the
isinstance(str) check: matching a non-str would crash like Python re. -/
def reMatchGithub : Json → Except VErr (Option (String × String))
  | .str s => pure (github_match s)
  | _ => .error .typeError

/-- Outcome of the one GitHub API call http_json(url): a decoded 2xx JSON
body, an HTTPError with its status code, or any other exception
(URLError, timeout, JSON decode error) with its message. The optional
bearer token only alters request headers, so it is absorbed into this
oracle. -/
inductive NetResult where
  | ok (body : Json)
  | httpError (code : Nat)
  | exc (msg : String)

/-- The script's recurring two-line idiom `if cond: fail(message)`: abort
the run with the diagnostic when the condition holds. -/
def check (cond : Bool) (msg : String) : Except VErr Unit :=
  if cond then vfail msg else pure ()

/-- The script's `for key in required: if key not in x: fail(...)` loops. -/
def requireKeys (x : Json) (mkMsg : String → String) : List String → Except VErr Unit
  | [] => pure ()
  | k :: ks => do
    let h ← x.hasKey k
    if !h then vfail (mkMsg k) else requireKeys x mkMsg ks

/-- validate_release (scripts/validate_registry.py lines 49-92): one
release record, validated against the owning package's name, its index and
the per-package set of already-seen version strings; on success the
updated seen-set is returned (the Python code mutates it in place). -/
def validate_release (release : Json) (package_name : String) (rel_idx : Nat)
    (seen_versions : List String) : Except VErr (List String) := do
  requireKeys release
    (fun key => package_name ++ ": release[" ++ toString rel_idx ++ "] missing \x27" ++ key ++ "\x27")
    ["version", "compiler-drop", "releasedAt", "source"]
  let version ← release.getItem "version"
  check (!(strMatch VERSION_RE version))
    (package_name ++ ": release[" ++ toString rel_idx ++ "].version must be semver (e.g. 1.0.0)")
  check (memStrs version seen_versions)
    (package_name ++ ": duplicate release version: " ++ version.pyStr)
  let seen_versions := match version with
    | .str s => s :: seen_versions
    | _ => seen_versions
  let released_at ← release.get? "releasedAt"
  check (!(strMatch DATE_RE released_at))
    (package_name ++ ": release[" ++ toString rel_idx ++ "].releasedAt must be YYYY-MM-DD")
  let compiler_drop ← release.get? "compiler-drop"
  check (!compiler_drop.isObj)
    (package_name ++ ": release[" ++ toString rel_idx ++ "].compiler-drop must be an object")
  let min_drop ← compiler_drop.get? "min"
  let tested_on ← compiler_drop.get? "tested-on"
  check (!(intGe1 min_drop))
    (package_name ++ ": release[" ++ toString rel_idx ++ "].compiler-drop.min must be >= 1")
  check (!(intGe1 tested_on))
    (package_name ++ ": release[" ++ toString rel_idx ++ "].compiler-drop.tested-on must be an integer >= 1")
  let isLt ← jsonLt tested_on min_drop
  check (isLt)
    (package_name ++ ": release[" ++ toString rel_idx ++ "].compiler-drop.tested-on must be >= min")
  let source ← release.get? "source"
  check (!source.isObj)
    (package_name ++ ": release[" ++ toString rel_idx ++ "].source must be an object")
  let commit ← source.get? "commit"
  let sha256 ← source.get? "sha256"
  check (!(strMatch COMMIT_RE commit))
    (package_name ++ ": release[" ++ toString rel_idx ++ "].source.commit must be a 40-char hex string")
  check (!(strMatch SHA256_RE sha256))
    (package_name ++ ": release[" ++ toString rel_idx ++ "].source.sha256 must be a 64-char hex string")
  pure seen_versions

/-- The `for idx, release in enumerate(releases)` loop of
validate_package_file, threading the fresh-per-package seen-set. -/
def releases_loop (package_name : String) (rels : List Json) (idx : Nat)
    (seen_versions : List String) : Except VErr (List String) :=
  match rels with
  | [] => pure seen_versions
  | release :: rest =>
    if !release.isObj then
      vfail (package_name ++ ": release[" ++ toString idx ++ "] must be an object")
    else do
      let seen ← validate_release release package_name idx seen_versions
      releases_loop package_name rest (idx + 1) seen

/-- pathlib Path(p).stem: final path component minus its last extension
(a leading dot of the component does not start an extension). `rbase` is
the final component reversed, so its first dot is the component's last. -/
def pathStem (p : String) : String :=
  let rbase := p.data.reverse.takeWhile (fun c => c != '/')
  match rbase.findIdx? (fun c => c == '.') with
  | none => rbase.reverse.asString
  | some i =>
    if i + 1 == rbase.length then rbase.reverse.asString
    else ((rbase.drop (i + 1)).reverse).asString

/-- validate_package_file (scripts/validate_registry.py lines 95-158).
The file's text and json.loads are modelled by handing in the parse
outcome `parsed`; `net` is the GitHub lookup oracle used only when
`offline` is false. -/
def validate_package_file (package_path : String) (parsed : Except String Json)
    (offline : Bool) (net : String → NetResult) : Except VErr Unit := do
  let package_name := pathStem package_path
  let data ← match parsed with
    | .error e => vfail (package_name ++ ": invalid JSON: " ++ e)
    | .ok d => pure d
  check (!data.isObj)
    (package_name ++ ": root must be a JSON object")
  requireKeys data (fun key => package_name ++ ": missing \x27" ++ key ++ "\x27")
    ["name", "schema-version", "repository", "releases", "createdAt"]
  let nameField ← data.getItem "name"
  check (!(nameField.eqStr package_name))
    (package_name ++ ": name field \x27" ++ nameField.pyStr ++ "\x27 does not match filename")
  let schema_version ← data.get? "schema-version"
  check (!(intGe1 schema_version))
    (package_name ++ ": schema-version must be >= 1")
  let created_at ← data.get? "createdAt"
  check (!(strMatch DATE_RE created_at))
    (package_name ++ ": createdAt must be YYYY-MM-DD")
  let repository ← data.getItem "repository"
  check (!repository.isStr)
    (package_name ++ ": repository must be a string")
  let m ← reMatchGithub repository
  match m with
  | none => vfail (package_name ++ ": repository must be a GitHub URL like https://github.com/owner/repo")
  | some (owner, repo0) => do
    let repo := stripDotGit repo0
    let releases ← data.get? "releases"
    match releases with
    | .arr rels =>
      if rels.isEmpty then
        vfail (package_name ++ ": releases must be a non-empty array")
      else do
        let _ ← releases_loop package_name rels 0 []
        if offline then pure ()
        else
          match net ("https://api.github.com/repos/" ++ owner ++ "/" ++ repo) with
          | .httpError code =>
            vfail (package_name ++ ": GitHub repo lookup failed (" ++ toString code ++ ") for " ++ owner ++ "/" ++ repo)
          | .exc emsg =>
            vfail (package_name ++ ": GitHub repo lookup failed: " ++ emsg)
          | .ok repo_meta => do
            let lic ← repo_meta.get? "license"
            let license_data := if lic.truthy then lic else Json.obj []
            let spdx_id ← license_data.get? "spdx_id"
            if !(spdx_id.eqStr "MIT") then
              vfail (package_name ++ ": license must be MIT (detected: " ++
                (if spdx_id.truthy then spdx_id.pyStr else "unknown") ++ ")")
            else pure ()
    | _ => vfail (package_name ++ ": releases must be a non-empty array")

/-- Lexicographic byte order on path characters. Python sorts the rglob
results by path; the claims only need the order to be a fixed total order
on paths, which this is. -/
def pathLeChars : List Char → List Char → Bool
  | [], _ => true
  | _ :: _, [] => false
  | a :: as, b :: bs =>
    if a.toNat < b.toNat then true
    else if b.toNat < a.toNat then false
    else pathLeChars as bs

/-- Order in which main processes two discovered files: by path. Python
compares paths componentwise; the claims only need a fixed total order on
paths, modelled as byte-lexicographic comparison of the path strings. -/
def fileLe (a b : String × Except String Json) : Prop :=
  pathLeChars a.1.data b.1.data = true

instance : DecidableRel fileLe := fun _ _ =>
  inferInstanceAs (Decidable (_ = true))

/-- The per-file loop of main: filename format, duplicate-stem test,
then package validation, stopping at the first failure. -/
def registry_loop (offline : Bool) (net : String → NetResult) (seen_names : List String) :
    List (String × Except String Json) → Except VErr Unit
  | [] => pure ()
  | (package_path, content) :: rest => do
    let package_name := pathStem package_path
    if !(NAME_RE package_name) then
      vfail ("invalid package filename: " ++ package_path)
    else if seen_names.contains package_name then
      vfail ("duplicate package detected by filename: " ++ package_name)
    else do
      validate_package_file package_path content offline net
      registry_loop offline net (package_name :: seen_names) rest

/-- main (scripts/validate_registry.py lines 161-185): `files` is the
rglob result as (path, json.loads outcome) pairs; the absent-packages-dir
fatal error concerns the filesystem, outside this model. On success main
prints the returned summary line. -/
def registry_main (offline : Bool) (net : String → NetResult)
    (files : List (String × Except String Json)) : Except VErr String :=
  let package_files := List.insertionSort fileLe files
  if package_files.isEmpty then .error (.fail "no package files found under packages/")
  else do
    registry_loop offline net [] package_files
    pure ("✅ Registry is valid (" ++ toString package_files.length ++ " packages, " ++
      (if offline then "offline" else "online") ++ " checks)")

/-- Written from the spec's words (the refinement side of the
format-validator claim): a date has exactly the shape \d{4}-\d{2}-\d{2} —
four digits, a dash, two digits, a dash, two digits, nothing else. -/
def spec_date_shape (s : String) : Bool :=
  match s.data with
  | [y1, y2, y3, y4, d1, m1, m2, d2, a1, a2] =>
    y1.isDigit && y2.isDigit && y3.isDigit && y4.isDigit && d1 == '-' &&
    m1.isDigit && m2.isDigit && d2 == '-' && a1.isDigit && a2.isDigit
  | _ => false

/-- Written from the spec's words: a semver has exactly the shape
\d+\.\d+\.\d+ with an optional '-' followed by [a-zA-Z0-9.]+ . -/
def spec_semver_shape (s : String) : Bool :=
  match takeDigits s.data with
  | ([], _) => false
  | (_ :: _, r1) =>
    match r1 with
    | '.' :: r1' =>
      match takeDigits r1' with
      | ([], _) => false
      | (_ :: _, r2) =>
        match r2 with
        | '.' :: r2' =>
          match takeDigits r2' with
          | ([], _) => false
          | (_ :: _, r3) =>
            match r3 with
            | [] => true
            | '-' :: pre => !pre.isEmpty && pre.all isPreRelChar
            | _ => false
        | _ => false
    | _ => false

/-- Version string of a release record, when it is an object carrying a
string "version" field (which holds for every accepted release). -/
def versionString (r : Json) : Option String :=
  match r with
  | .obj fs =>
    match jlookup fs "version" with
    | some (.str s) => some s
    | _ => none
  | _ => none

/-- A 40-character commit digest, "a" * 40. -/
def commit40 : String := String.mk (List.replicate 40 'a')

/-- A 64-character content digest, "b" * 64. -/
def sha64 : String := String.mk (List.replicate 64 'b')

/-- Fields of the spec's minimally valid release (the spec's field names
compilerDrop / testedOn denote the JSON keys "compiler-drop" /
"tested-on" the script reads). -/
def release_100_fields : List (String × Json) :=
  [("version", .str "1.0.0"), ("releasedAt", .str "2024-01-01"),
   ("compiler-drop", .obj [("min", .num 1), ("tested-on", .num 1)]),
   ("source", .obj [("commit", .str commit40), ("sha256", .str sha64)])]

/-- The spec's minimally valid release 1.0.0. -/
def release_100 : Json := .obj release_100_fields

/-- A release like `release_100` except that its compiler-drop range is
inverted: min 2, tested-on 1. -/
def release_badcd_fields : List (String × Json) :=
  [("version", .str "1.0.0"), ("releasedAt", .str "2024-01-01"),
   ("compiler-drop", .obj [("min", .num 2), ("tested-on", .num 1)]),
   ("source", .obj [("commit", .str commit40), ("sha256", .str sha64)])]

/-- The spec's minimally valid descriptor for package "abcd" (the spec's
field name schemaVersion denotes the JSON key "schema-version" the
script reads). -/
def abcd_descriptor : Json :=
  .obj [("name", .str "abcd"), ("schema-version", .num 1),
        ("repository", .str "https://github.com/o/r"),
        ("createdAt", .str "2024-01-01"),
        ("releases", .arr [release_100])]

/-- A descriptor like `abcd_descriptor` except that its repository URL
carries an extra path segment beyond owner and repo. -/
def abcd_badrepo_fields : List (String × Json) :=
  [("name", .str "abcd"), ("schema-version", .num 1),
   ("repository", .str "https://github.com/owner/repo/extra"),
   ("createdAt", .str "2024-01-01"),
   ("releases", .arr [release_100])]

/-- A network oracle for runs that never reach the network. -/
def noNet : String → NetResult := fun _ => .exc "offline"

/-- A computation does not crash: it is not the Python-TypeError outcome. -/
def noTE (x : Except VErr α) : Prop := x ≠ .error .typeError

@[simp]
theorem epure (a : α) : (pure a : Except VErr α) = .ok a := rfl

@[simp]
theorem ebind_ok (a : α) (f : α → Except VErr β) :
    ((Except.ok a : Except VErr α) >>= f) = f a := rfl

@[simp]
theorem ebind_err (e : VErr) (f : α → Except VErr β) :
    ((Except.error e : Except VErr α) >>= f) = .error e := rfl

theorem ebind_eq_ok {x : Except VErr α} {f : α → Except VErr β} {b : β} :
    (x >>= f) = .ok b ↔ ∃ a, x = .ok a ∧ f a = .ok b := by
  cases x <;> simp [Bind.bind, Except.bind]

@[simp]
theorem vfail_eq : (vfail msg : Except VErr α) = .error (.fail msg) := rfl

@[simp]
theorem hasKey_obj (fs : List (String × Json)) (k : String) :
    Json.hasKey (.obj fs) k = pure (jlookup fs k).isSome := rfl

@[simp]
theorem get?_obj (fs : List (String × Json)) (k : String) :
    Json.get? (.obj fs) k = pure ((jlookup fs k).getD .null) := rfl

theorem getItem_obj_some {fs : List (String × Json)} {k : String} {v : Json}
    (h : jlookup fs k = some v) : Json.getItem (.obj fs) k = pure v := by
  simp [Json.getItem, h]

theorem noTE_pure (a : α) : noTE (pure a : Except VErr α) := by
  simp [noTE]

theorem noTE_vfail (msg : String) : noTE (vfail msg : Except VErr α) := by
  simp [noTE]

theorem noTE_bind {x : Except VErr α} {f : α → Except VErr β}
    (hx : noTE x) (hf : ∀ a, x = .ok a → noTE (f a)) : noTE (x >>= f) := by
  cases hx' : x with
  | ok a => simpa using hf a hx'
  | error e =>
    cases e with
    | typeError => exact absurd hx' hx
    | fail m => simp [noTE]

theorem requireKeys_obj_noTE (fs : List (String × Json)) (m : String → String) :
    ∀ ks, noTE (requireKeys (.obj fs) m ks) := by
  intro ks
  induction ks with
  | nil => exact noTE_pure ()
  | cons k ks ih =>
    unfold requireKeys
    simp only [hasKey_obj, epure, ebind_ok]
    by_cases h : (jlookup fs k).isSome <;> simp [h, noTE] <;> exact ih

theorem requireKeys_ok_lookup {fs : List (String × Json)} {m : String → String} :
    ∀ {ks}, requireKeys (.obj fs) m ks = .ok () → ∀ k ∈ ks, (jlookup fs k).isSome = true := by
  intro ks
  induction ks with
  | nil => intro _ k hk; simp at hk
  | cons k0 ks ih =>
    intro h k hk
    unfold requireKeys at h
    simp only [hasKey_obj, epure, ebind_ok] at h
    by_cases h0 : (jlookup fs k0).isSome
    · rw [if_neg (by simp [h0])] at h
      rcases List.mem_cons.mp hk with rfl | hk'
      · exact h0
      · exact ih h k hk'
    · rw [if_pos (by simp [h0])] at h
      exact absurd h (by simp)

theorem requireKeys_of_all {fs : List (String × Json)} {m : String → String} :
    ∀ {ks}, (∀ k ∈ ks, (jlookup fs k).isSome = true) → requireKeys (.obj fs) m ks = .ok () := by
  intro ks
  induction ks with
  | nil => intro _; rfl
  | cons k0 ks ih =>
    intro h
    unfold requireKeys
    simp only [hasKey_obj, epure, ebind_ok]
    rw [if_neg (by simp [h k0 (by simp)])]
    exact ih fun k hk => h k (by simp [hk])

theorem isObj_iff {j : Json} : j.isObj = true ↔ ∃ fs, j = .obj fs := by
  cases j <;> simp [Json.isObj]

theorem jsonLt_noTE {a b : Json} (ha : intGe1 a = true) (hb : intGe1 b = true) :
    noTE (jsonLt a b) := by
  cases a <;> cases b <;>
    simp [intGe1, Json.asInt?] at ha hb <;>
    simp [jsonLt, Json.asRat?, noTE]

theorem noTE_check {c : Bool} {m : String} : noTE (check c m) := by
  cases c <;> simp [check, noTE]

theorem check_eq_ok {c : Bool} {m : String} {a : Unit} :
    check c m = .ok a ↔ c = false := by
  cases c <;> simp [check]

theorem check_false {m : String} : check false m = pure () := rfl

theorem strMatch_str {re : String → Bool} {j : Json} (h : strMatch re j = true) :
    ∃ s, j = .str s ∧ re s = true := by
  cases j <;> simp [strMatch] at h ⊢
  exact h

theorem validate_release_obj_noTE (fs : List (String × Json)) (name : String)
    (idx : Nat) (seen : List String) :
    noTE (validate_release (.obj fs) name idx seen) := by
  unfold validate_release
  apply noTE_bind (requireKeys_obj_noTE fs _ _)
  intro u hreq
  have hkeys := requireKeys_ok_lookup (by cases u; exact hreq)
  have hv : (jlookup fs "version").isSome := hkeys "version" (by simp)
  rcases hv' : jlookup fs "version" with _ | version
  · rw [hv'] at hv; simp at hv
  · rw [getItem_obj_some hv']
    simp only [get?_obj, epure, ebind_ok]
    apply noTE_bind noTE_check; intro _ _
    apply noTE_bind noTE_check; intro _ _
    apply noTE_bind noTE_check; intro _ _
    apply noTE_bind noTE_check; intro _ hcd
    rw [check_eq_ok] at hcd
    simp at hcd
    obtain ⟨cfs, hcfs⟩ := isObj_iff.mp hcd
    rw [hcfs]
    simp only [get?_obj, epure, ebind_ok]
    apply noTE_bind noTE_check; intro _ hmin
    apply noTE_bind noTE_check; intro _ htst
    rw [check_eq_ok] at hmin htst
    simp at hmin htst
    apply noTE_bind (jsonLt_noTE htst hmin)
    intro isLt _
    apply noTE_bind noTE_check; intro _ _
    apply noTE_bind noTE_check; intro _ hsrc
    rw [check_eq_ok] at hsrc
    simp at hsrc
    obtain ⟨sfs, hsfs⟩ := isObj_iff.mp hsrc
    rw [hsfs]
    simp only [get?_obj, epure, ebind_ok]
    apply noTE_bind noTE_check; intro _ _
    apply noTE_bind noTE_check; intro _ _
    exact noTE_pure _

theorem validate_release_ok {fs : List (String × Json)} {name : String} {idx : Nat}
    {seen seen' : List String}
    (h : validate_release (.obj fs) name idx seen = .ok seen') :
    ∃ v, jlookup fs "version" = some (.str v) ∧ VERSION_RE v = true ∧
      v ∉ seen ∧ seen' = v :: seen := by
  unfold validate_release at h
  rcases ebind_eq_ok.mp h with ⟨u, hreq, h⟩
  have hkeys := requireKeys_ok_lookup (by cases u; exact hreq)
  have hv : (jlookup fs "version").isSome := hkeys "version" (by simp)
  rcases hv' : jlookup fs "version" with _ | version
  · rw [hv'] at hv; simp at hv
  · rw [getItem_obj_some hv'] at h
    simp only [get?_obj, epure, ebind_ok] at h
    rcases ebind_eq_ok.mp h with ⟨_, hg1, h⟩
    rw [check_eq_ok] at hg1
    simp at hg1
    obtain ⟨v, rfl, hre⟩ := strMatch_str hg1
    refine ⟨v, rfl, hre, ?_⟩
    rcases ebind_eq_ok.mp h with ⟨_, hg2, h⟩
    rw [check_eq_ok] at hg2
    refine ⟨by simpa [memStrs] using hg2, ?_⟩
    rcases ebind_eq_ok.mp h with ⟨_, _, h⟩
    rcases ebind_eq_ok.mp h with ⟨_, hcd, h⟩
    rw [check_eq_ok] at hcd
    simp at hcd
    obtain ⟨cfs, hcfs⟩ := isObj_iff.mp hcd
    rw [hcfs] at h
    simp only [get?_obj, epure, ebind_ok] at h
    rcases ebind_eq_ok.mp h with ⟨_, _, h⟩
    rcases ebind_eq_ok.mp h with ⟨_, _, h⟩
    rcases ebind_eq_ok.mp h with ⟨isLt, _, h⟩
    rcases ebind_eq_ok.mp h with ⟨_, _, h⟩
    rcases ebind_eq_ok.mp h with ⟨_, hsrc, h⟩
    rw [check_eq_ok] at hsrc
    simp at hsrc
    obtain ⟨sfs, hsfs⟩ := isObj_iff.mp hsrc
    rw [hsfs] at h
    simp only [get?_obj, epure, ebind_ok] at h
    rcases ebind_eq_ok.mp h with ⟨_, _, h⟩
    rcases ebind_eq_ok.mp h with ⟨_, _, h⟩
    exact (Except.ok.inj h).symm

theorem releases_loop_noTE (name : String) :
    ∀ (rels : List Json) (idx : Nat) (seen : List String),
      noTE (releases_loop name rels idx seen) := by
  intro rels
  induction rels with
  | nil => intro idx seen; exact noTE_pure _
  | cons r rest ih =>
    intro idx seen
    unfold releases_loop
    by_cases hobj : r.isObj = true
    · obtain ⟨fs, rfl⟩ := isObj_iff.mp hobj
      simp only [Json.isObj, Bool.not_true, Bool.false_eq_true, if_false]
      exact noTE_bind (validate_release_obj_noTE fs name idx seen) (fun s _ => ih (idx + 1) s)
    · rw [Bool.not_eq_true] at hobj
      simp [hobj, noTE]

theorem releases_loop_append (name : String) :
    ∀ (xs ys : List Json) (idx : Nat) (seen : List String),
      releases_loop name (xs ++ ys) idx seen =
        (releases_loop name xs idx seen) >>= fun s =>
          releases_loop name ys (idx + xs.length) s := by
  intro xs
  induction xs with
  | nil =>
    intro ys idx seen
    simp [releases_loop]
  | cons x xs ih =>
    intro ys idx seen
    simp only [List.cons_append]
    unfold releases_loop
    by_cases hobj : x.isObj = true
    · simp only [hobj, Bool.not_true, Bool.false_eq_true, if_false]
      have hlen : idx + (x :: xs).length = (idx + 1) + xs.length := by
        simp [List.length_cons]; omega
      rw [hlen]
      simp only [ih, bind_assoc]
      congr 1
      funext s1
      congr 1
      funext s2
      rw [releases_loop.eq_def]
    · rw [Bool.not_eq_true] at hobj
      simp [hobj]

theorem releases_loop_ok_inv {name : String} :
    ∀ {rels : List Json} {idx : Nat} {seen seen' : List String},
      releases_loop name rels idx seen = .ok seen' →
      (rels.filterMap versionString).Nodup ∧
      (∀ v ∈ rels.filterMap versionString, v ∉ seen) ∧
      (∀ v ∈ rels.filterMap versionString, VERSION_RE v = true) ∧
      (∀ v, v ∈ seen' ↔ v ∈ seen ∨ v ∈ rels.filterMap versionString) := by
  intro rels
  induction rels with
  | nil =>
    intro idx seen seen' h
    have : seen = seen' := Except.ok.inj h
    subst this
    simp [List.filterMap_nil]
  | cons r rest ih =>
    intro idx seen seen' h
    unfold releases_loop at h
    by_cases hobj : r.isObj = true
    · obtain ⟨fs, rfl⟩ := isObj_iff.mp hobj
      simp only [Json.isObj, Bool.not_true, Bool.false_eq_true, if_false] at h
      rcases ebind_eq_ok.mp h with ⟨smid, hvr, hloop⟩
      obtain ⟨v, hv, hre, hfresh, rfl⟩ := validate_release_ok hvr
      obtain ⟨ihN, ihS, ihR, ihM⟩ := ih hloop
      have hvs : versionString (.obj fs) = some v := by simp [versionString, hv]
      have hfm : (Json.obj fs :: rest).filterMap versionString =
          v :: rest.filterMap versionString := by
        simp [List.filterMap_cons, hvs]
      rw [hfm]
      refine ⟨?_, ?_, ?_, ?_⟩
      · rw [List.nodup_cons]
        refine ⟨fun hmem => ?_, ihN⟩
        exact (ihS v hmem) (List.mem_cons_self v seen)
      · intro w hw
        rcases List.mem_cons.mp hw with rfl | hw'
        · exact hfresh
        · intro hws
          exact (ihS w hw') (List.mem_cons_of_mem v hws)
      · intro w hw
        rcases List.mem_cons.mp hw with rfl | hw'
        · exact hre
        · exact ihR w hw'
      · intro w
        rw [ihM w, List.mem_cons, List.mem_cons]
        tauto
    · rw [Bool.not_eq_true] at hobj
      simp [hobj] at h

theorem validate_release_dup {fields : List (String × Json)} {name : String} {idx : Nat}
    {seen : List String} {v : String}
    (hks : ∀ k ∈ (["version", "compiler-drop", "releasedAt", "source"] : List String),
      (jlookup fields k).isSome = true)
    (hv : jlookup fields "version" = some (.str v))
    (hre : VERSION_RE v = true) (hdup : v ∈ seen) :
    validate_release (.obj fields) name idx seen =
      .error (.fail (name ++ ": duplicate release version: " ++ v)) := by
  unfold validate_release
  rw [requireKeys_of_all hks]
  simp only [ebind_ok]
  rw [getItem_obj_some hv]
  simp only [epure, ebind_ok]
  rw [show (!(strMatch VERSION_RE (Json.str v))) = false by simp [strMatch, hre]]
  rw [check_false]
  simp only [epure, ebind_ok]
  rw [show memStrs (Json.str v) seen = true by simp [memStrs, hdup]]
  simp [check, Json.pyStr]

theorem validate_release_cd_eval {fields : List (String × Json)} {name : String}
    {idx : Nat} {seen : List String} {v d cmt sh : String} {a b : Int}
    (hv : jlookup fields "version" = some (.str v)) (hre : VERSION_RE v = true)
    (hfresh : v ∉ seen)
    (hrd : jlookup fields "releasedAt" = some (.str d)) (hd : DATE_RE d = true)
    (hcd : jlookup fields "compiler-drop" =
      some (.obj [("min", .num a), ("tested-on", .num b)]))
    (ha : 1 ≤ a) (hb : 1 ≤ b)
    (hsrc : jlookup fields "source" =
      some (.obj [("commit", .str cmt), ("sha256", .str sh)]))
    (hcm : COMMIT_RE cmt = true) (hsh : SHA256_RE sh = true) :
    validate_release (.obj fields) name idx seen =
      if b < a then
        .error (.fail (name ++ ": release[" ++ toString idx ++
          "].compiler-drop.tested-on must be >= min"))
      else .ok (v :: seen) := by
  unfold validate_release
  rw [requireKeys_of_all (by intro k hk; fin_cases hk <;> simp [hv, hcd, hrd, hsrc])]
  simp only [ebind_ok]
  rw [getItem_obj_some hv]
  simp only [epure, ebind_ok]
  rw [show (!(strMatch VERSION_RE (Json.str v))) = false by simp [strMatch, hre]]
  rw [check_false]
  simp only [epure, ebind_ok]
  rw [show memStrs (Json.str v) seen = false by simp [memStrs]; exact hfresh]
  rw [check_false]
  simp only [epure, ebind_ok, get?_obj, hrd, Option.getD_some]
  rw [show (!(strMatch DATE_RE (Json.str d))) = false by simp [strMatch, hd]]
  rw [check_false]
  simp only [epure, ebind_ok, get?_obj, hcd, Option.getD_some]
  rw [show (!(Json.obj [("min", Json.num a), ("tested-on", Json.num b)]).isObj) = false by
    simp [Json.isObj]]
  rw [check_false]
  simp only [epure, ebind_ok, get?_obj]
  rw [show jlookup [("min", Json.num a), ("tested-on", Json.num b)] "min" =
    some (.num a) from rfl]
  rw [show jlookup [("min", Json.num a), ("tested-on", Json.num b)] "tested-on" =
    some (.num b) from rfl]
  simp only [Option.getD_some, epure, ebind_ok]
  rw [show (!(intGe1 (Json.num a))) = false by simp [intGe1, Json.asInt?]; exact ha]
  rw [check_false]
  simp only [epure, ebind_ok]
  rw [show (!(intGe1 (Json.num b))) = false by simp [intGe1, Json.asInt?]; exact hb]
  rw [check_false]
  simp only [epure, ebind_ok]
  rw [show jsonLt (Json.num b) (Json.num a) = pure (decide (b < a)) by
    simp [jsonLt, Json.asRat?]]
  simp only [epure, ebind_ok]
  by_cases hba : b < a
  · rw [if_pos hba]
    rw [show (decide (b < a)) = true by simp [hba]]
    simp [check]
  · rw [if_neg hba]
    rw [show (decide (b < a)) = false by simp [hba]]
    rw [check_false]
    simp only [epure, ebind_ok, get?_obj, hsrc, Option.getD_some]
    rw [show (!(Json.obj [("commit", Json.str cmt), ("sha256", Json.str sh)]).isObj) = false by
      simp [Json.isObj]]
    rw [check_false]
    simp only [epure, ebind_ok, get?_obj]
    rw [show jlookup [("commit", Json.str cmt), ("sha256", Json.str sh)] "commit" =
      some (.str cmt) from rfl]
    rw [show jlookup [("commit", Json.str cmt), ("sha256", Json.str sh)] "sha256" =
      some (.str sh) from rfl]
    simp only [Option.getD_some, epure, ebind_ok]
    rw [show (!(strMatch COMMIT_RE (Json.str cmt))) = false by simp [strMatch, hcm]]
    rw [check_false]
    simp only [epure, ebind_ok]
    rw [show (!(strMatch SHA256_RE (Json.str sh))) = false by simp [strMatch, hsh]]
    rw [check_false]
    simp only [epure, ebind_ok]

theorem validate_package_file_offline_net (p : String) (c : Except String Json)
    (net : String → NetResult) :
    validate_package_file p c true net = validate_package_file p c true noNet := by
  simp [validate_package_file]

theorem spec_date_shape_eq (s : String) : spec_date_shape s = dateCore s.data := rfl

theorem spec_semver_shape_eq (s : String) : spec_semver_shape s = versionCore s.data := rfl

theorem pyDollar_str_iff (core : List Char → Bool) (s : String) :
    pyDollar core s.data = true ↔
      core s.data = true ∨ ∃ t : String, s = t ++ "\n" ∧ core t.data = true := by
  unfold pyDollar
  simp only [Bool.or_eq_true]
  constructor
  · rintro (h | h)
    · exact Or.inl h
    · right
      rcases hL : s.data.getLast? with _ | c
      · rw [hL] at h; simp at h
      · rw [hL] at h
        simp only [Bool.and_eq_true, beq_iff_eq] at h
        obtain ⟨hc, hcore⟩ := h
        have hne : s.data ≠ [] := by
          intro hnil
          rw [hnil] at hL
          simp at hL
        refine ⟨⟨s.data.dropLast⟩, ?_, hcore⟩
        apply String.ext
        rw [List.getLast?_eq_getLast _ hne] at hL
        have hlast : s.data.getLast hne = '\n' := by
          have h1 := Option.some.inj hL
          rw [h1]; exact hc
        calc s.data
            = s.data.dropLast ++ [s.data.getLast hne] :=
              (List.dropLast_append_getLast hne).symm
          _ = (String.mk s.data.dropLast ++ "\n").data := by rw [hlast]; rfl
  · rintro (h | ⟨t, hst, hcore⟩)
    · exact Or.inl h
    · right
      have hdata : s.data = t.data ++ ['\n'] := by
        rw [hst]; rfl
      rw [hdata, List.getLast?_concat]
      simp [List.dropLast_concat, hcore]

theorem isStr_iff {j : Json} : j.isStr = true ↔ ∃ s, j = .str s := by
  cases j <;> simp [Json.isStr]

theorem validate_package_file_noTE (p : String) (parsed : Except String Json)
    (net : String → NetResult) :
    noTE (validate_package_file p parsed true net) := by
  unfold validate_package_file
  cases parsed with
  | error e => simp [noTE]
  | ok data =>
    simp only [epure, ebind_ok]
    apply noTE_bind noTE_check; intro _ hobj
    rw [check_eq_ok] at hobj
    simp at hobj
    obtain ⟨fs, rfl⟩ := isObj_iff.mp hobj
    apply noTE_bind (requireKeys_obj_noTE fs _ _); intro u hreq
    have hkeys := requireKeys_ok_lookup (by cases u; exact hreq)
    have hn : (jlookup fs "name").isSome := hkeys "name" (by simp)
    rcases hn' : jlookup fs "name" with _ | nameField
    · rw [hn'] at hn; simp at hn
    · rw [getItem_obj_some hn']
      simp only [get?_obj, epure, ebind_ok]
      apply noTE_bind noTE_check; intro _ _
      apply noTE_bind noTE_check; intro _ _
      apply noTE_bind noTE_check; intro _ _
      have hr : (jlookup fs "repository").isSome := hkeys "repository" (by simp)
      rcases hr' : jlookup fs "repository" with _ | repository
      · rw [hr'] at hr; simp at hr
      · rw [getItem_obj_some hr']
        simp only [epure, ebind_ok]
        apply noTE_bind noTE_check; intro _ hstr
        rw [check_eq_ok] at hstr
        simp at hstr
        obtain ⟨rs, rfl⟩ := isStr_iff.mp hstr
        rw [show reMatchGithub (Json.str rs) = pure (github_match rs) from rfl]
        simp only [epure, ebind_ok]
        cases github_match rs with
        | none => simp [noTE]
        | some pr =>
          obtain ⟨owner, repo0⟩ := pr
          simp only [get?_obj, epure, ebind_ok]
          split
          · split
            · simp [noTE]
            · apply noTE_bind (releases_loop_noTE _ _ 0 [])
              intro _ _
              simp [noTE]
          · simp [noTE]

theorem registry_loop_ok_inv {offline : Bool} {net : String → NetResult} :
    ∀ {files : List (String × Except String Json)} {seen : List String},
      registry_loop offline net seen files = .ok () →
      (∀ f ∈ files, NAME_RE (pathStem f.1) = true) ∧
      (∀ f ∈ files, pathStem f.1 ∉ seen) ∧
      (files.map (fun f => pathStem f.1)).Nodup := by
  intro files
  induction files with
  | nil => intro seen _; simp
  | cons fc rest ih =>
    intro seen h
    obtain ⟨path, content⟩ := fc
    unfold registry_loop at h
    by_cases h1 : NAME_RE (pathStem path) = true
    · rw [if_neg (by simp [h1])] at h
      by_cases h2 : seen.contains (pathStem path) = true
      · rw [if_pos h2] at h
        simp at h
      · rw [if_neg h2] at h
        rcases ebind_eq_ok.mp h with ⟨_, _, hloop⟩
        obtain ⟨ihA, ihB, ihC⟩ := ih hloop
        have h2' : pathStem path ∉ seen := by
          intro hmem
          exact h2 (List.elem_eq_true_of_mem hmem)
        refine ⟨?_, ?_, ?_⟩
        · intro f hf
          rcases List.mem_cons.mp hf with rfl | hf'
          · exact h1
          · exact ihA f hf'
        · intro f hf
          rcases List.mem_cons.mp hf with rfl | hf'
          · exact h2'
          · intro hmem
            exact (ihB f hf') (List.mem_cons_of_mem _ hmem)
        · rw [List.map_cons, List.nodup_cons]
          refine ⟨?_, ihC⟩
          intro hmem
          rcases List.mem_map.mp hmem with ⟨f, hf, hfe⟩
          exact (ihB f hf) (by rw [hfe]; exact List.mem_cons_self _ _)
    · rw [if_pos (by simp [Bool.not_eq_true] at h1 ⊢; exact h1)] at h
      simp at h

theorem asString_data (s : String) : s.data.asString = s := by
  cases s
  rfl

theorem stripLead_append : ∀ (p rest : List Char), stripLead p (p ++ rest) = some rest := by
  intro p
  induction p with
  | nil => intro rest; rfl
  | cons c cs ih => intro rest; simp [stripLead, ih]

theorem takeSeg_no_slash : ∀ (cs : List Char), '/' ∉ cs → takeSeg cs = (cs, []) := by
  intro cs
  induction cs with
  | nil => intro _; rfl
  | cons c cs ih =>
    intro h
    have hc : (c == '/') = false := by
      simp only [List.mem_cons, not_or] at h
      simpa using fun he => h.1 he.symm
    unfold takeSeg
    rw [hc]
    simp only [Bool.false_eq_true, if_false]
    rw [ih (by simp only [List.mem_cons, not_or] at h; exact h.2)]

theorem takeSeg_append_slash :
    ∀ (seg rest : List Char), '/' ∉ seg →
      takeSeg (seg ++ '/' :: rest) = (seg, '/' :: rest) := by
  intro seg
  induction seg with
  | nil => intro rest _; simp [takeSeg]
  | cons c cs ih =>
    intro rest h
    have hc : (c == '/') = false := by
      simp only [List.mem_cons, not_or] at h
      simpa using fun he => h.1 he.symm
    simp only [List.cons_append]
    unfold takeSeg
    rw [hc]
    simp only [Bool.false_eq_true, if_false]
    rw [ih rest (by simp only [List.mem_cons, not_or] at h; exact h.2)]

theorem ne_empty_data {s : String} (h : s ≠ "") : s.data.isEmpty = false := by
  rcases hd : s.data with _ | ⟨c, cs⟩
  · exact absurd (String.ext hd) h
  · rfl

theorem github_match_exact {o r : String} (ho : o ≠ "") (ho' : '/' ∉ o.data)
    (hr : r ≠ "") (hr' : '/' ∉ r.data) :
    github_match ("https://github.com/" ++ o ++ "/" ++ r) = some (o, r) := by
  unfold github_match
  have hd : ("https://github.com/" ++ o ++ "/" ++ r).data =
      "https://github.com/".data ++ (o.data ++ '/' :: r.data) := by
    simp [String.data_append]
  rw [hd, stripLead_append]
  simp only [takeSeg_append_slash o.data r.data ho', ne_empty_data ho,
    Bool.false_eq_true, if_false, takeSeg_no_slash r.data hr', ne_empty_data hr,
    asString_data]

theorem github_match_slash {o r : String} (ho : o ≠ "") (ho' : '/' ∉ o.data)
    (hr : r ≠ "") (hr' : '/' ∉ r.data) :
    github_match ("https://github.com/" ++ o ++ "/" ++ r ++ "/") = some (o, r) := by
  unfold github_match
  have hd : ("https://github.com/" ++ o ++ "/" ++ r ++ "/").data =
      "https://github.com/".data ++ (o.data ++ '/' :: (r.data ++ '/' :: [])) := by
    simp [String.data_append]
  rw [hd, stripLead_append]
  simp only [takeSeg_append_slash o.data _ ho', ne_empty_data ho,
    Bool.false_eq_true, if_false, takeSeg_append_slash r.data _ hr', ne_empty_data hr,
    asString_data]

theorem github_match_extra {o r x : String} (ho : o ≠ "") (ho' : '/' ∉ o.data)
    (hr : r ≠ "") (hr' : '/' ∉ r.data) (hx : x ≠ "") (hxn : x ≠ "\n") :
    github_match ("https://github.com/" ++ o ++ "/" ++ r ++ "/" ++ x) = none := by
  unfold github_match
  have hd : ("https://github.com/" ++ o ++ "/" ++ r ++ "/" ++ x).data =
      "https://github.com/".data ++ (o.data ++ '/' :: (r.data ++ '/' :: x.data)) := by
    simp [String.data_append]
  rw [hd, stripLead_append]
  simp only [takeSeg_append_slash o.data _ ho', ne_empty_data ho,
    Bool.false_eq_true, if_false, takeSeg_append_slash r.data _ hr', ne_empty_data hr]
  rcases hxd : x.data with _ | ⟨c, cs⟩
  · exact absurd (String.ext hxd) hx
  · by_cases hc : c = '\n'
    · subst hc
      rcases cs with _ | ⟨c2, cs2⟩
      · exact absurd (String.ext (by rw [hxd])) hxn
      · rfl
    · simp [hc]

theorem leadsWith_append : ∀ (p rest : List Char), leadsWith p (p ++ rest) = true := by
  intro p
  induction p with
  | nil => intro rest; rfl
  | cons c cs ih => intro rest; simp [leadsWith, ih]

theorem stripDotGit_append (r : String) : stripDotGit (r ++ ".git") = r := by
  unfold stripDotGit
  rw [String.data_append]
  have h1 : leadsWith ".git".data.reverse (r.data ++ ".git".data).reverse = true := by
    rw [List.reverse_append]
    exact leadsWith_append _ _
  rw [h1]
  have h2 : (r.data ++ ".git".data).length - 4 = r.data.length := by
    simp [List.length_append]
  simp only [if_true]
  rw [h2, List.take_left, asString_data]

theorem validate_package_repo_fail {path : String} {fields : List (String × Json)}
    {k : Int} {d u : String}
    (hkeys : ∀ key ∈ (["name", "schema-version", "repository", "releases", "createdAt"] :
      List String), (jlookup fields key).isSome = true)
    (hname : jlookup fields "name" = some (.str (pathStem path)))
    (hsv : jlookup fields "schema-version" = some (.num k)) (hk : 1 ≤ k)
    (hca : jlookup fields "createdAt" = some (.str d)) (hd : DATE_RE d = true)
    (hrepo : jlookup fields "repository" = some (.str u))
    (hnone : github_match u = none) :
    ∀ (offline : Bool) (net : String → NetResult),
      validate_package_file path (.ok (.obj fields)) offline net =
        .error (.fail (pathStem path ++
          ": repository must be a GitHub URL like https://github.com/owner/repo")) := by
  intro offline net
  unfold validate_package_file
  simp only [epure, ebind_ok]
  rw [show (!(Json.obj fields).isObj) = false by simp [Json.isObj]]
  rw [check_false]
  simp only [epure, ebind_ok]
  rw [requireKeys_of_all hkeys]
  simp only [ebind_ok]
  rw [getItem_obj_some hname]
  simp only [epure, ebind_ok]
  rw [show (!(Json.eqStr (.str (pathStem path)) (pathStem path))) = false by
    simp [Json.eqStr]]
  rw [check_false]
  simp only [epure, ebind_ok, get?_obj, hsv, Option.getD_some]
  rw [show (!(intGe1 (Json.num k))) = false by simp [intGe1, Json.asInt?]; exact hk]
  rw [check_false]
  simp only [epure, ebind_ok, get?_obj, hca, Option.getD_some]
  rw [show (!(strMatch DATE_RE (Json.str d))) = false by simp [strMatch, hd]]
  rw [check_false]
  simp only [epure, ebind_ok]
  rw [getItem_obj_some hrepo]
  simp only [epure, ebind_ok]
  rw [show (!(Json.str u).isStr) = false by simp [Json.isStr]]
  rw [check_false]
  simp only [epure, ebind_ok]
  rw [show reMatchGithub (Json.str u) = pure (github_match u) from rfl, hnone]
  simp only [epure, ebind_ok]
  rfl

theorem abcd_online_eval (net : String → NetResult) :
    validate_package_file "packages/abcd.json" (.ok abcd_descriptor) false net =
      (match net "https://api.github.com/repos/o/r" with
       | .httpError code =>
         vfail ("abcd" ++ ": GitHub repo lookup failed (" ++ toString code ++
           ") for " ++ "o" ++ "/" ++ "r")
       | .exc emsg => vfail ("abcd" ++ ": GitHub repo lookup failed: " ++ emsg)
       | .ok repo_meta => do
         let lic ← repo_meta.get? "license"
         let license_data := if lic.truthy then lic else Json.obj []
         let spdx_id ← license_data.get? "spdx_id"
         if !(spdx_id.eqStr "MIT") then
           vfail ("abcd" ++ ": license must be MIT (detected: " ++
             (if spdx_id.truthy then spdx_id.pyStr else "unknown") ++ ")")
         else pure ()) := by rfl


theorem pathLeChars_total : ∀ (as bs : List Char),
    pathLeChars as bs = true ∨ pathLeChars bs as = true := by
  intro as
  induction as with
  | nil => intro bs; left; rfl
  | cons a as ih =>
    intro bs
    cases bs with
    | nil => right; rfl
    | cons b bs =>
      by_cases h1 : a.toNat < b.toNat
      · left; simp [pathLeChars, h1]
      · by_cases h2 : b.toNat < a.toNat
        · right; simp [pathLeChars, h2]
        · rcases ih bs with h | h
          · left; simp [pathLeChars, h1, h2, h]
          · right; simp [pathLeChars, h1, h2, h]

theorem pathLeChars_trans : ∀ (as bs cs : List Char),
    pathLeChars as bs = true → pathLeChars bs cs = true → pathLeChars as cs = true := by
  intro as
  induction as with
  | nil => intro bs cs _ _; rfl
  | cons a as ih =>
    intro bs cs h1 h2
    cases bs with
    | nil => simp [pathLeChars] at h1
    | cons b bs =>
      cases cs with
      | nil => simp [pathLeChars] at h2
      | cons c cs =>
        simp only [pathLeChars] at h1 h2 ⊢
        by_cases hab : a.toNat < b.toNat
        · by_cases hbc : b.toNat < c.toNat
          · simp [show a.toNat < c.toNat from Nat.lt_trans hab hbc]
          · by_cases hcb : c.toNat < b.toNat
            · rw [if_neg hbc, if_pos hcb] at h2
              simp at h2
            · have : b.toNat = c.toNat := Nat.le_antisymm (Nat.le_of_not_lt hcb) (Nat.le_of_not_lt hbc)
              simp [show a.toNat < c.toNat from this ▸ hab]
        · by_cases hba : b.toNat < a.toNat
          · rw [if_neg hab, if_pos hba] at h1
            simp at h1
          · have hab' : a.toNat = b.toNat := Nat.le_antisymm (Nat.le_of_not_lt hba) (Nat.le_of_not_lt hab)
            rw [if_neg hab, if_neg hba] at h1
            by_cases hbc : b.toNat < c.toNat
            · simp [show a.toNat < c.toNat from hab' ▸ hbc]
            · by_cases hcb : c.toNat < b.toNat
              · rw [if_neg hbc, if_pos hcb] at h2
                simp at h2
              · have hbc' : b.toNat = c.toNat := Nat.le_antisymm (Nat.le_of_not_lt hcb) (Nat.le_of_not_lt hbc)
                have hac : ¬ a.toNat < c.toNat := by omega
                have hca : ¬ c.toNat < a.toNat := by omega
                rw [if_neg hbc, if_neg hcb] at h2
                rw [if_neg hac, if_neg hca]
                exact ih bs cs h1 h2

theorem pathLeChars_antisymm : ∀ (as bs : List Char),
    pathLeChars as bs = true → pathLeChars bs as = true → as = bs := by
  intro as
  induction as with
  | nil =>
    intro bs _ h2
    cases bs with
    | nil => rfl
    | cons b bs => simp [pathLeChars] at h2
  | cons a as ih =>
    intro bs h1 h2
    cases bs with
    | nil => simp [pathLeChars] at h1
    | cons b bs =>
      simp only [pathLeChars] at h1 h2
      by_cases hab : a.toNat < b.toNat
      · rw [if_neg (by omega : ¬ b.toNat < a.toNat), if_pos hab] at h2
        simp at h2
      · by_cases hba : b.toNat < a.toNat
        · rw [if_neg hab, if_pos hba] at h1
          simp at h1
        · have hn : a.toNat = b.toNat := by omega
          have : a = b := Char.eq_of_val_eq (UInt32.ext hn)
          subst this
          rw [if_neg hab, if_neg hba] at h1 h2
          rw [ih bs h1 h2]


theorem sorted_files_unique {l1 l2 : List (String × Except String Json)}
    (hp : l1.Perm l2)
    (hs1 : List.Sorted fileLe l1) (hs2 : List.Sorted fileLe l2)
    (hn : (l1.map Prod.fst).Nodup) : l1 = l2 := by
  haveI : IsAntisymm (String × Except String Json) (fun a b => fileLe a b ∧ a.1 ≠ b.1) :=
    ⟨fun a b h1 h2 =>
      absurd (String.ext (pathLeChars_antisymm _ _ h1.1 h2.1)) h1.2⟩
  have hn2 : (l2.map Prod.fst).Nodup := ((hp.map Prod.fst).nodup_iff).mp hn
  have hpw1 : l1.Pairwise (fun a b => a.1 ≠ b.1) := (List.pairwise_map).mp hn
  have hpw2 : l2.Pairwise (fun a b => a.1 ≠ b.1) := (List.pairwise_map).mp hn2
  exact List.eq_of_perm_of_sorted hp (hs1.and hpw1) (hs2.and hpw2)

theorem registry_loop_offline_net :
    ∀ (files : List (String × Except String Json)) (seen : List String)
      (net : String → NetResult),
      registry_loop true net seen files = registry_loop true noNet seen files := by
  intro files
  induction files with
  | nil => intro seen net; rfl
  | cons fc rest ih =>
    intro seen net
    obtain ⟨p, c⟩ := fc
    simp only [registry_loop]
    rw [validate_package_file_offline_net p c net]
    simp only [ih]

/-- C3: release version strings accepted within a package are pairwise
distinct as raw strings; a release whose version string equals that of any
earlier accepted release in the same list — regardless of position — makes
validation fail with the duplicate-version diagnostic. -/
theorem C3_duplicate_version_claim :
    (∀ (name : String) (rels : List Json) (idx : Nat) (seen seen' : List String),
      releases_loop name rels idx seen = .ok seen' →
      (rels.filterMap versionString).Nodup) ∧
    (∀ (name : String) (rs1 rs2 : List Json) (fields : List (String × Json))
      (v : String) (seen1 : List String),
      releases_loop name rs1 0 [] = .ok seen1 →
      jlookup fields "version" = some (.str v) →
      (jlookup fields "compiler-drop").isSome = true →
      (jlookup fields "releasedAt").isSome = true →
      (jlookup fields "source").isSome = true →
      v ∈ seen1 →
      releases_loop name (rs1 ++ .obj fields :: rs2) 0 [] =
        .error (.fail (name ++ ": duplicate release version: " ++ v))) := by
  constructor
  · intro name rels idx seen seen' h
    exact (releases_loop_ok_inv h).1
  · intro name rs1 rs2 fields v seen1 h1 hv hcd hrd hsrc hdup
    have hinv := releases_loop_ok_inv h1
    have hre : VERSION_RE v = true := by
      rcases (hinv.2.2.2 v).mp hdup with h | h
      · simp at h
      · exact hinv.2.2.1 v h
    rw [releases_loop_append, h1]
    simp only [ebind_ok]
    unfold releases_loop
    simp only [Json.isObj, Bool.not_true, Bool.false_eq_true, if_false]
    rw [validate_release_dup ?hks hv hre hdup]
    case hks => intro k hk; fin_cases hk <;> simp [hv, hcd, hrd, hsrc]
    simp

theorem C3_duplicate_version_witness :
    releases_loop "abcd" [release_100, release_100] 0 [] =
      .error (.fail "abcd: duplicate release version: 1.0.0") :=
  C3_duplicate_version_claim.2 "abcd" [release_100] [] release_100_fields
    "1.0.0" ["1.0.0"] (by decide) rfl (by decide) (by decide) (by decide)
    (by decide)

/-- C4: for a release whose compiler-drop carries integers min ≥ 1 and
tested-on ≥ 1 (all other fields valid), validation fails with the
range diagnostic exactly when tested-on < min, and passes the
compiler-drop checks (validating fully) whenever tested-on ≥ min. -/
theorem C4_compiler_drop_range_claim :
    ∀ (name : String) (idx : Nat) (seen : List String)
      (fields : List (String × Json)) (v d cmt sh : String) (a b : Int),
      jlookup fields "version" = some (.str v) → VERSION_RE v = true → v ∉ seen →
      jlookup fields "releasedAt" = some (.str d) → DATE_RE d = true →
      jlookup fields "compiler-drop" =
        some (.obj [("min", .num a), ("tested-on", .num b)]) →
      1 ≤ a → 1 ≤ b →
      jlookup fields "source" =
        some (.obj [("commit", .str cmt), ("sha256", .str sh)]) →
      COMMIT_RE cmt = true → SHA256_RE sh = true →
      ((b < a → validate_release (.obj fields) name idx seen =
          .error (.fail (name ++ ": release[" ++ toString idx ++
            "].compiler-drop.tested-on must be >= min"))) ∧
       (a ≤ b → validate_release (.obj fields) name idx seen = .ok (v :: seen))) := by
  intro name idx seen fields v d cmt sh a b hv hre hfresh hrd hd hcd ha hb hsrc hcm hsh
  have he := @validate_release_cd_eval fields name idx seen v d cmt sh a b hv hre hfresh hrd hd hcd ha hb hsrc hcm hsh
  constructor
  · intro hba
    rw [he, if_pos hba]
  · intro hab
    rw [he, if_neg (not_lt.mpr hab)]

theorem C4_compiler_drop_range_witness :
    (validate_release (.obj release_badcd_fields) "abcd" 0 [] =
      .error (.fail "abcd: release[0].compiler-drop.tested-on must be >= min")) ∧
    (validate_release (.obj release_100_fields) "abcd" 0 [] = .ok ["1.0.0"]) := by
  constructor
  · exact (C4_compiler_drop_range_claim "abcd" 0 [] release_badcd_fields
      "1.0.0" "2024-01-01" commit40 sha64 2 1 rfl (by decide) (by decide)
      rfl (by decide) rfl (by decide) (by decide) rfl
      (by decide) (by decide)).1 (by decide)
  · exact (C4_compiler_drop_range_claim "abcd" 0 [] release_100_fields
      "1.0.0" "2024-01-01" commit40 sha64 1 1 rfl (by decide) (by decide)
      rfl (by decide) rfl (by decide) (by decide) rfl
      (by decide) (by decide)).2 (by decide)

/-- C1: the spec's minimally valid descriptor, stored as packages/abcd.json
(base name "abcd"), passes offline package validation with no failure,
whatever the network oracle. -/
theorem C1_minimal_descriptor_claim : ∀ net : String → NetResult,
    validate_package_file "packages/abcd.json" (.ok abcd_descriptor) true net = .ok () := by
  intro net
  rw [validate_package_file_offline_net]
  decide

/-- C2 counterexample: the date and semver validators also accept their
pattern followed by one trailing newline (Python re `$`), so "accepts
exactly the spec shape, any extra character rejected" fails at
"2024-01-01\n" and "1.0.0\n". -/
theorem C2_format_validators_counterexample :
    DATE_RE "2024-01-01\n" = true ∧ spec_date_shape "2024-01-01\n" = false ∧
    VERSION_RE "1.0.0\n" = true ∧ spec_semver_shape "1.0.0\n" = false := by
  decide

/-- C2 amended: each format validator accepts s exactly when s has the
spec's stated shape, or that shape followed by a single trailing newline
(the semantics of a final `$` under Python re.match); in particular
"2024-13-99" is accepted and any other extra characters are rejected. -/
theorem C2_format_validators_amended : ∀ s : String,
    (DATE_RE s = true ↔
      (spec_date_shape s = true ∨ ∃ t : String, s = t ++ "\n" ∧ spec_date_shape t = true)) ∧
    (VERSION_RE s = true ↔
      (spec_semver_shape s = true ∨ ∃ t : String, s = t ++ "\n" ∧ spec_semver_shape t = true)) := by
  intro s
  constructor
  · have h := pyDollar_str_iff dateCore s
    simpa [DATE_RE, spec_date_shape_eq] using h
  · have h := pyDollar_str_iff versionCore s
    simpa [VERSION_RE, spec_semver_shape_eq] using h

/-- C6: a descriptor file whose base name fails the name format makes the
run fail with the invalid-filename diagnostic the moment the per-file loop
reaches it, for every possible content of the file — the check precedes any
use of the contents; consequently a registry containing such a file never
validates successfully. -/
theorem C6_invalid_filename_claim :
    (∀ (offline : Bool) (net : String → NetResult) (seen : List String)
      (path : String) (content : Except String Json)
      (rest : List (String × Except String Json)),
      NAME_RE (pathStem path) = false →
      registry_loop offline net seen ((path, content) :: rest) =
        .error (.fail ("invalid package filename: " ++ path))) ∧
    (∀ (offline : Bool) (net : String → NetResult)
      (files : List (String × Except String Json)) (path : String)
      (content : Except String Json) (res : String),
      (path, content) ∈ files → NAME_RE (pathStem path) = false →
      registry_main offline net files ≠ .ok res) := by
  constructor
  · intro offline net seen path content rest h
    unfold registry_loop
    rw [if_pos (by simp [h])]
    rfl
  · intro offline net files path content res hmem h hok
    simp only [registry_main] at hok
    split at hok
    · simp at hok
    · rcases ebind_eq_ok.mp hok with ⟨u, hloop, _⟩
      have hinv := registry_loop_ok_inv (by cases u; exact hloop)
      have hmem' : (path, content) ∈ List.insertionSort fileLe files :=
        ((List.perm_insertionSort fileLe files).mem_iff).mpr hmem
      have := hinv.1 (path, content) hmem'
      rw [h] at this
      exact Bool.noConfusion this

theorem C6_invalid_filename_witness :
    registry_loop true noNet [] [("packages/Bad.json", .ok (Json.num 5))] =
      .error (.fail "invalid package filename: packages/Bad.json") :=
  C6_invalid_filename_claim.1 true noNet [] "packages/Bad.json"
    (.ok (Json.num 5)) [] (by decide)

/-- C7: package identity is the base filename: when the loop reaches a file
whose (format-valid) stem was already seen — whatever its directory and
whatever its parsed contents, so internal name fields are irrelevant — the
run fails with the duplicate-package diagnostic; and a successful run has
pairwise-distinct stems across the whole registry. -/
theorem C7_duplicate_package_claim :
    (∀ (offline : Bool) (net : String → NetResult) (seen : List String)
      (path : String) (content : Except String Json)
      (rest : List (String × Except String Json)),
      NAME_RE (pathStem path) = true →
      pathStem path ∈ seen →
      registry_loop offline net seen ((path, content) :: rest) =
        .error (.fail ("duplicate package detected by filename: " ++ pathStem path))) ∧
    (∀ (offline : Bool) (net : String → NetResult)
      (files : List (String × Except String Json)) (res : String),
      registry_main offline net files = .ok res →
      (files.map (fun f => pathStem f.1)).Nodup) := by
  constructor
  · intro offline net seen path content rest h1 h2
    unfold registry_loop
    rw [if_neg (by simp [h1])]
    rw [if_pos (List.elem_eq_true_of_mem h2)]
    rfl
  · intro offline net files res hok
    simp only [registry_main] at hok
    split at hok
    · simp at hok
    · rcases ebind_eq_ok.mp hok with ⟨u, hloop, _⟩
      have hinv := registry_loop_ok_inv (by cases u; exact hloop)
      have : ((List.insertionSort fileLe files).map (fun f => pathStem f.1)).Nodup :=
        hinv.2.2
      exact (((List.perm_insertionSort fileLe files).map
        (fun f => pathStem f.1)).nodup_iff).mp this

theorem C7_duplicate_package_witness :
    registry_loop true noNet ["abcd"] [("packages/sub/abcd.json", .ok (Json.num 5))] =
      .error (.fail "duplicate package detected by filename: abcd") := by
  have h := C7_duplicate_package_claim.1 true noNet ["abcd"] "packages/sub/abcd.json"
    (.ok (Json.num 5)) [] (by decide) (by decide)
  exact h

/-- C5: the hosting-URL check: a repository URL with an extra path segment
beyond owner and repo fails GITHUB_REPO_RE and makes package validation
fail with the GitHub-URL diagnostic in offline and online mode alike,
while exactly https://github.com/owner/repo — optionally with a trailing
slash, optionally with a .git suffix on the repo segment — is accepted,
owner and repo being extracted and a trailing .git stripped from repo. -/
theorem C5_repository_url_claim :
    (∀ (o r x : String), o ≠ "" → '/' ∉ o.data → r ≠ "" → '/' ∉ r.data →
      x ≠ "" → x ≠ "\n" →
      github_match ("https://github.com/" ++ o ++ "/" ++ r ++ "/" ++ x) = none) ∧
    (∀ (o r : String), o ≠ "" → '/' ∉ o.data → r ≠ "" → '/' ∉ r.data →
      github_match ("https://github.com/" ++ o ++ "/" ++ r) = some (o, r) ∧
      github_match ("https://github.com/" ++ o ++ "/" ++ r ++ "/") = some (o, r) ∧
      github_match ("https://github.com/" ++ o ++ "/" ++ (r ++ ".git")) =
        some (o, r ++ ".git") ∧
      stripDotGit (r ++ ".git") = r) ∧
    (∀ (offline : Bool) (net : String → NetResult) (path : String)
      (fields : List (String × Json)) (k : Int) (d o r x : String),
      (∀ key ∈ (["name", "schema-version", "repository", "releases", "createdAt"] :
        List String), (jlookup fields key).isSome = true) →
      jlookup fields "name" = some (.str (pathStem path)) →
      jlookup fields "schema-version" = some (.num k) → 1 ≤ k →
      jlookup fields "createdAt" = some (.str d) → DATE_RE d = true →
      jlookup fields "repository" =
        some (.str ("https://github.com/" ++ o ++ "/" ++ r ++ "/" ++ x)) →
      o ≠ "" → '/' ∉ o.data → r ≠ "" → '/' ∉ r.data → x ≠ "" → x ≠ "\n" →
      validate_package_file path (.ok (.obj fields)) offline net =
        .error (.fail (pathStem path ++
          ": repository must be a GitHub URL like https://github.com/owner/repo"))) := by
  refine ⟨?_, ?_, ?_⟩
  · intro o r x ho ho' hr hr' hx hxn
    exact github_match_extra ho ho' hr hr' hx hxn
  · intro o r ho ho' hr hr'
    refine ⟨github_match_exact ho ho' hr hr', github_match_slash ho ho' hr hr', ?_, ?_⟩
    · apply github_match_exact ho ho'
      · intro h
        have : (r ++ ".git").data = "".data := by rw [h]
        rw [String.data_append] at this
        simp at this
      · rw [String.data_append]
        simp [hr']
    · exact stripDotGit_append r
  · intro offline net path fields k d o r x hkeys hname hsv hk hca hd hrepo ho ho' hr hr' hx hxn
    exact validate_package_repo_fail hkeys hname hsv hk hca hd hrepo
      (github_match_extra ho ho' hr hr' hx hxn) offline net

theorem C5_repository_url_witness :
    github_match "https://github.com/owner/repo/extra" = none ∧
    github_match "https://github.com/o/r" = some ("o", "r") ∧
    github_match "https://github.com/o/r.git" = some ("o", "r.git") ∧
    stripDotGit "r.git" = "r" ∧
    validate_package_file "packages/abcd.json" (.ok (.obj abcd_badrepo_fields)) true noNet =
      .error (.fail "abcd: repository must be a GitHub URL like https://github.com/owner/repo") := by
  refine ⟨?_, ?_, ?_, ?_, ?_⟩
  · exact C5_repository_url_claim.1 "owner" "repo" "extra" (by decide) (by decide)
      (by decide) (by decide) (by decide) (by decide)
  · exact (C5_repository_url_claim.2.1 "o" "r" (by decide) (by decide) (by decide)
      (by decide)).1
  · exact (C5_repository_url_claim.2.1 "o" "r" (by decide) (by decide) (by decide)
      (by decide)).2.2.1
  · exact (C5_repository_url_claim.2.1 "o" "r" (by decide) (by decide) (by decide)
      (by decide)).2.2.2
  · exact C5_repository_url_claim.2.2 true noNet "packages/abcd.json" abcd_badrepo_fields
      1 "2024-01-01" "owner" "repo" "extra" (by decide) rfl rfl (by decide) rfl (by decide)
      rfl (by decide) (by decide) (by decide) (by decide) (by decide) (by decide)

/-- C8: online mode on the minimally valid package abcd (repository o/r):
when the GitHub lookup returns a body whose license.spdx_id is exactly
"MIT" the license check passes; a body carrying any other (nonempty)
identifier fails with the license diagnostic naming it; and a body whose
license field is absent or null fails naming "unknown". -/
theorem C8_license_claim :
    (∀ (net : String → NetResult) (mf lf : List (String × Json)),
      net "https://api.github.com/repos/o/r" = .ok (.obj mf) →
      jlookup mf "license" = some (.obj lf) →
      jlookup lf "spdx_id" = some (.str "MIT") →
      validate_package_file "packages/abcd.json" (.ok abcd_descriptor) false net =
        .ok ()) ∧
    (∀ (net : String → NetResult) (mf lf : List (String × Json)) (s : String),
      net "https://api.github.com/repos/o/r" = .ok (.obj mf) →
      jlookup mf "license" = some (.obj lf) →
      jlookup lf "spdx_id" = some (.str s) →
      s ≠ "MIT" → s ≠ "" →
      validate_package_file "packages/abcd.json" (.ok abcd_descriptor) false net =
        .error (.fail ("abcd" ++ ": license must be MIT (detected: " ++ s ++ ")"))) ∧
    (∀ (net : String → NetResult) (mf : List (String × Json)),
      net "https://api.github.com/repos/o/r" = .ok (.obj mf) →
      (jlookup mf "license" = none ∨ jlookup mf "license" = some .null) →
      validate_package_file "packages/abcd.json" (.ok abcd_descriptor) false net =
        .error (.fail ("abcd" ++ ": license must be MIT (detected: " ++
          "unknown" ++ ")"))) := by
  refine ⟨?_, ?_, ?_⟩
  · intro net mf lf hnet hlic hspdx
    rw [abcd_online_eval, hnet]
    have hlf : lf.isEmpty = false := by
      rcases lf with _ | _
      · simp [jlookup] at hspdx
      · rfl
    simp only [get?_obj, epure, ebind_ok, hlic, Option.getD_some, Json.truthy, hlf,
      Bool.not_false, if_true, hspdx, Json.eqStr]
    simp
  · intro net mf lf s hnet hlic hspdx hs hs'
    rw [abcd_online_eval, hnet]
    have hlf : lf.isEmpty = false := by
      rcases lf with _ | _
      · simp [jlookup] at hspdx
      · rfl
    simp only [get?_obj, epure, ebind_ok, hlic, Option.getD_some, Json.truthy, hlf,
      Bool.not_false, if_true, hspdx, Json.eqStr, Json.pyStr]
    simp [hs, hs']
  · intro net mf hnet hlic
    rw [abcd_online_eval, hnet]
    rcases hlic with hlic | hlic
    · simp only [get?_obj, epure, ebind_ok, hlic, Option.getD_none, Json.truthy,
        Bool.false_eq_true, if_false]
      simp [jlookup, Json.eqStr, Json.truthy]
    · simp only [get?_obj, epure, ebind_ok, hlic, Option.getD_some, Json.truthy,
        Bool.false_eq_true, if_false]
      simp [jlookup, Json.eqStr, Json.truthy]

theorem C8_license_witness :
    validate_package_file "packages/abcd.json" (.ok abcd_descriptor) false
      (fun _ => .ok (.obj [("license", .obj [("spdx_id", .str "MIT")])])) = .ok () ∧
    validate_package_file "packages/abcd.json" (.ok abcd_descriptor) false
      (fun _ => .ok (.obj [("license", .obj [("spdx_id", .str "Apache-2.0")])])) =
      .error (.fail "abcd: license must be MIT (detected: Apache-2.0)") ∧
    validate_package_file "packages/abcd.json" (.ok abcd_descriptor) false
      (fun _ => .ok (.obj [("full_name", .str "o/r")])) =
      .error (.fail "abcd: license must be MIT (detected: unknown)") := by
  refine ⟨?_, ?_, ?_⟩
  · exact C8_license_claim.1 _ [("license", .obj [("spdx_id", .str "MIT")])]
      [("spdx_id", .str "MIT")] rfl rfl rfl
  · exact C8_license_claim.2.1 _ [("license", .obj [("spdx_id", .str "Apache-2.0")])]
      [("spdx_id", .str "Apache-2.0")] "Apache-2.0" rfl rfl rfl (by decide) (by decide)
  · exact C8_license_claim.2.2 _ [("full_name", .str "o/r")] rfl (Or.inl rfl)

/-- C9: offline validation is deterministic in the registry contents: for
any two file lists holding the same files (any order, distinct paths) and
any two network oracles, offline registry_main produces the same outcome —
the files are re-sorted by path and processed fail-fast, so an invalid
registry also reports the same single first failure. -/
theorem C9_offline_determinism_claim :
    ∀ (files1 files2 : List (String × Except String Json))
      (net1 net2 : String → NetResult),
      files1.Perm files2 → (files1.map Prod.fst).Nodup →
      registry_main true net1 files1 = registry_main true net2 files2 := by
  intro f1 f2 net1 net2 hp hn
  haveI : IsTotal (String × Except String Json) fileLe :=
    ⟨fun a b => pathLeChars_total a.1.data b.1.data⟩
  haveI : IsTrans (String × Except String Json) fileLe :=
    ⟨fun a b c => pathLeChars_trans a.1.data b.1.data c.1.data⟩
  have hs : List.insertionSort fileLe f1 = List.insertionSort fileLe f2 := by
    apply sorted_files_unique
    · exact ((List.perm_insertionSort fileLe f1).trans hp).trans
        (List.perm_insertionSort fileLe f2).symm
    · exact List.sorted_insertionSort fileLe f1
    · exact List.sorted_insertionSort fileLe f2
    · exact (((List.perm_insertionSort fileLe f1).map Prod.fst).nodup_iff).mpr hn
  simp only [registry_main, hs]
  rw [registry_loop_offline_net _ _ net1, registry_loop_offline_net _ _ net2]

theorem C9_offline_determinism_witness :
    registry_main true noNet
        [("packages/a.json", .ok abcd_descriptor), ("packages/b.json", .error "boom")] =
      registry_main true (fun _ => .httpError 500)
        [("packages/b.json", .error "boom"), ("packages/a.json", .ok abcd_descriptor)] :=
  C9_offline_determinism_claim _ _ _ _ (List.Perm.swap _ _ _) (by decide)

/-- C10: validation is total over arbitrary parsed JSON: for every JSON
value in any field position, offline package validation and release
validation (on the object records the package loop passes it) terminate in
a clean accept/fail outcome and never reach the Python-crash state —
every string field is isinstance-checked before its regex is applied, and
every object field (the root, compiler-drop, source, each release) before
its keys are read. -/
theorem C10_total_validation_claim :
    (∀ (fs : List (String × Json)) (name : String) (idx : Nat) (seen : List String),
      validate_release (.obj fs) name idx seen ≠ .error .typeError) ∧
    (∀ (path : String) (parsed : Except String Json) (net : String → NetResult),
      validate_package_file path parsed true net ≠ .error .typeError) :=
  ⟨fun fs name idx seen => validate_release_obj_noTE fs name idx seen,
   fun path parsed net => validate_package_file_noTE path parsed net⟩
